import Mathlib

/-
Verification of the tab/pane layout core (src/mux/tab.rs): a shallow
embedding of the split-tree data model, the Tab operations (iter_panes,
resize, compute_split_size, split_and_insert, assign_pane, set_active_idx,
cell_dimensions), the paste trickler, and the id allocators, together with
theorems settling the specification claims.

Machine integers (u16 sizes, usize indices and counters) are embedded as
Nat; Rust's saturating_sub and Nat's truncated subtraction coincide, and
the u16 arithmetic in the claims under study stays far from 2^16 so no
wrap-around modelling is needed.  Rust division (which panics on a zero
divisor) is modelled twice: a checked variant returning Option, used to
reason about the panic branch, and the plain Nat division used downstream.

The bintree crate (Tree, cursor, path_to_root, preorder_next,
go_to_nth_leaf, split_leaf_and_insert_right, assign_top, assign_node) is
part of the repository but not among the provided sources; its behaviour
is modelled from the spec where marked.
-/

namespace WezTab

/-- PtySize from portable_pty: rows, cols, pixel_width, pixel_height (u16). -/
structure PtySize where
  rows : Nat
  cols : Nat
  pixel_width : Nat
  pixel_height : Nat
deriving Repr, DecidableEq, Inhabited

/-- SplitDirection: Horizontal = side-by-side children, Vertical = stacked. -/
inductive SplitDirection where
  | Horizontal
  | Vertical
deriving Repr, DecidableEq

/-- SplitDirectionAndSize: the payload of an internal tree node. -/
structure SplitDirectionAndSize where
  direction : SplitDirection
  left : Nat
  top : Nat
  first : PtySize
  second : PtySize
deriving Repr, DecidableEq

/-- A pane as the layout core observes it: its id, the is_dead report,
whether its resize capability fails (modelling the fallible
Pane::resize), and the last size successfully applied to it. -/
structure PaneData where
  pane_id : Nat
  dead : Bool
  resizeFails : Bool
  size : PtySize
deriving Repr, DecidableEq, Inhabited

/-- Pane::resize: fails (I/O error) iff the pane's resize capability
fails; on success the pane records the applied size. -/
def paneResize (p : PaneData) (s : PtySize) : Except String PaneData :=
  if p.resizeFails then Except.error "resize failed" else Except.ok { p with size := s }

/-- Modelled from the spec: the bintree crate's binary tree of pane
leaves and internal nodes.  Node payloads are SplitDirectionAndSize;
the source assigns the payload (assign_node) immediately after every
split_leaf_and_insert_right, so the payload is modelled as always
present. -/
inductive Tree where
  | leaf (pane : PaneData)
  | node (data : SplitDirectionAndSize) (first second : Tree)
deriving Repr, DecidableEq, Inhabited

/-- Number of leaves (panes) of a tree. -/
def leafCount : Tree → Nat
  | .leaf _ => 1
  | .node _ a b => leafCount a + leafCount b

/-- Modelled from the spec: go_to_nth_leaf followed by leaf_mut — the
n-th pre-order leaf, when n is in range. -/
def nthLeaf : Tree → Nat → Option PaneData
  | .leaf p, 0 => some p
  | .leaf _, _ + 1 => none
  | .node _ a b, n =>
      if n < leafCount a then nthLeaf a n else nthLeaf b (n - leafCount a)

/-- Modelled from the spec: split_leaf_and_insert_right + assign_node,
expressed as replacing the n-th pre-order leaf by a given subtree. -/
def replaceNthLeaf : Tree → Nat → Tree → Tree
  | .leaf _, 0, r => r
  | .leaf p, _ + 1, _ => .leaf p
  | .node d a b, n, r =>
      if n < leafCount a then .node d (replaceNthLeaf a n r) b
      else .node d a (replaceNthLeaf b (n - leafCount a) r)

/-- The divider adjustment iter_panes applies at the nearest ancestor:
when the cursor is the right child, Vertical adds first.rows + 1 to top
and Horizontal adds first.cols + 1 to left. -/
def divAdjust (d : SplitDirectionAndSize) (is_second : Bool) : Nat × Nat :=
  if is_second then
    match d.direction with
    | .Vertical => (0, d.first.rows + 1)
    | .Horizontal => (d.first.cols + 1, 0)
  else (0, 0)

/-- The child slot of a node corresponding to the side the cursor is on. -/
def sideSlot (d : SplitDirectionAndSize) (is_second : Bool) : PtySize :=
  if is_second then d.second else d.first

/-- Modelled from the spec: the data the cursor exposes at each pre-order
leaf — the leaf value, path_to_root (ancestor payloads from the immediate
parent upward) and is_right (whether the leaf is the right child of its
immediate parent; false at the root, where there is no parent). -/
def leafPaths : Tree → List (PaneData × List SplitDirectionAndSize × Bool)
  | .leaf p => [(p, [], false)]
  | .node d a b =>
      (leafPaths a).map
        (fun x => (x.1, x.2.1 ++ [d], if x.2.1.isEmpty then false else x.2.2)) ++
      (leafPaths b).map
        (fun x => (x.1, x.2.1 ++ [d], if x.2.1.isEmpty then true else x.2.2))

/-- The per-leaf geometry computation of iter_panes: left and top sum
node.left and node.top over every entry of path_to_root; the nearest
ancestor additionally contributes the divider adjustment and supplies
the leaf's size (first or second slot by side); a root leaf takes the
Tab's outer size. -/
def geom (outer : PtySize) : List SplitDirectionAndSize → Bool → Nat × Nat × PtySize
  | [], _ => (0, 0, outer)
  | d :: rest, is_second =>
      ((divAdjust d is_second).1 + ((d :: rest).map (fun n => n.left)).sum,
       (divAdjust d is_second).2 + ((d :: rest).map (fun n => n.top)).sum,
       sideSlot d is_second)

/-- PositionedPane from iter_panes. -/
structure PositionedPane where
  index : Nat
  is_active : Bool
  left : Nat
  top : Nat
  width : Nat
  height : Nat
  pane : PaneData
deriving Repr, DecidableEq

/-- Attach pre-order indices starting at k. -/
def withIdx : List α → Nat → List (Nat × α)
  | [], _ => []
  | x :: xs, k => (k, x) :: withIdx xs (k + 1)

/-- Tab::iter_panes on a present tree: pre-order leaves, each positioned
by the path_to_root walk, indexed by position, active flag by index. -/
def iterPanesTree (outer : PtySize) (active : Nat) (t : Tree) : List PositionedPane :=
  (withIdx (leafPaths t) 0).map fun x =>
    let g := geom outer x.2.2.1 x.2.2.2
    { index := x.1, is_active := x.1 == active, left := g.1, top := g.2.1,
      width := g.2.2.cols, height := g.2.2.rows, pane := x.2.1 }

/-- Tab: the tree slot (Option because the cursor API takes the tree out
and reinserts it), the outer size, and the active pane index.  The
source field holding the tree is named pane. -/
structure Tab where
  pane : Option Tree
  size : PtySize
  active : Nat
deriving Repr, DecidableEq

/-- Tab::iter_panes.  The source unwraps the tree slot (a missing tree
is a panic and externally unreachable); the none branch yields []. -/
def Tab.iter_panes (tab : Tab) : List PositionedPane :=
  match tab.pane with
  | none => []
  | some t => iterPanesTree tab.size tab.active t

/-- Tab::get_size. -/
def Tab.get_size (tab : Tab) : PtySize := tab.size

/-- Tab::get_active_idx. -/
def Tab.get_active_idx (tab : Tab) : Nat := tab.active

/-- Tab::set_active_idx: stores the given index with no bounds check. -/
def Tab.set_active_idx (tab : Tab) (pane_index : Nat) : Tab :=
  { tab with active := pane_index }

/-- Tab::assign_pane.  The source calls assign_top on a freshly created
empty tree — never on the tree in the Tab's slot — so assign_top always
succeeds and the slot is overwritten with the new single-leaf tree; the
panic branch for a non-empty tree is unreachable. -/
def Tab.assign_pane (tab : Tab) (p : PaneData) : Tab :=
  { tab with pane := some (.leaf p) }

/-- Rust integer division: panics (none) on a zero divisor. -/
def checkedDiv (a b : Nat) : Option Nat :=
  if b = 0 then none else some (a / b)

/-- Tab::cell_dimensions with the division-by-zero panic branch explicit. -/
def cell_dimensionsChecked (size : PtySize) : Option PtySize := do
  let pw ← checkedDiv size.pixel_width size.cols
  let ph ← checkedDiv size.pixel_height size.rows
  pure { rows := 1, cols := 1, pixel_width := pw, pixel_height := ph }

/-- Tab::cell_dimensions on the panic-free path (plain Nat division). -/
def cell_dims (size : PtySize) : PtySize :=
  { rows := 1, cols := 1,
    pixel_width := size.pixel_width / size.cols,
    pixel_height := size.pixel_height / size.rows }

/-- Tab::cell_dimensions of the Tab's current size. -/
def Tab.cell_dimensions (tab : Tab) : PtySize := cell_dims tab.size

/-- The cell_width / cell_height divisions at the top of Tab::resize,
with the division-by-zero panic branch explicit. -/
def resizeCellsChecked (size : PtySize) : Option (Nat × Nat) := do
  let cw ← checkedDiv size.pixel_width size.cols
  let ch ← checkedDiv size.pixel_height size.rows
  pure (cw, ch)

/-- The internal-node update of Tab::resize: branch on the direction
obtained from the immediate parent (Horizontal when there is none) and
take rows/cols from the new outer size; then recompute both children's
pixel sizes from the new cell dimensions. -/
def resizeNode (size : PtySize) (cw ch : Nat) (parentDir : SplitDirection)
    (d : SplitDirectionAndSize) : SplitDirectionAndSize :=
  let d1 :=
    if parentDir = SplitDirection.Horizontal then
      { d with
        first := { d.first with rows := size.rows }
        second := { d.second with rows := size.rows, cols := size.cols - (1 + d.first.cols) } }
    else
      { d with
        first := { d.first with cols := size.cols }
        second := { d.second with cols := size.cols, rows := size.rows - (1 + d.first.rows) } }
  { d1 with
    first := { d1.first with pixel_width := d1.first.cols * cw, pixel_height := d1.first.rows * ch }
    second := { d1.second with pixel_width := d1.second.cols * cw, pixel_height := d1.second.rows * ch } }

/-- The pre-order walk of Tab::resize.  Each position reads (direction,
pane_size) from its immediate parent — the parent node was updated
before its children are visited, so the already-updated payload is
passed down — or (Horizontal, new size) at the root.  Leaves apply
pane_size to the pane (the resize result is discarded); internal nodes
apply resizeNode, which uses only the direction and the new outer size. -/
def resizeTree (size : PtySize) (cw ch : Nat) :
    Tree → Option (SplitDirectionAndSize × Bool) → Tree
  | .leaf p, parent =>
      let pane_size :=
        match parent with
        | none => size
        | some pd => sideSlot pd.1 pd.2
      .leaf (match paneResize p pane_size with
             | .ok q => q
             | .error _ => p)
  | .node d a b, parent =>
      let dir :=
        match parent with
        | none => SplitDirection.Horizontal
        | some pd => pd.1.direction
      let d1 := resizeNode size cw ch dir d
      .node d1 (resizeTree size cw ch a (some (d1, false)))
               (resizeTree size cw ch b (some (d1, true)))

/-- Tab::resize: update the stored size and walk the tree.  The source
unwraps the tree slot first (missing tree = panic, externally
unreachable); the none branch leaves the Tab unchanged. -/
def Tab.resize (tab : Tab) (size : PtySize) : Tab :=
  match tab.pane with
  | none => tab
  | some t =>
      { tab with
        size := size
        pane := some (resizeTree size (size.pixel_width / size.cols)
                        (size.pixel_height / size.rows) t none) }

/-- The split_dimension helper of Tab::compute_split_size: halve; if the
dimension was even the second (new) child loses one cell to the divider
(saturating_sub, which Nat subtraction matches). -/
def split_dimension (dim : Nat) : Nat × Nat :=
  let halved := dim / 2
  if halved * 2 = dim then (halved, halved - 1) else (halved, halved)

/-- Tab::compute_split_size. -/
def Tab.compute_split_size (tab : Tab) (pane_index : Nat)
    (direction : SplitDirection) : Option SplitDirectionAndSize :=
  let cdims := tab.cell_dimensions
  (tab.iter_panes.get? pane_index).map fun pos =>
    let wh :=
      match direction with
      | .Horizontal => (split_dimension pos.width, (pos.height, pos.height))
      | .Vertical => ((pos.width, pos.width), split_dimension pos.height)
    { direction := direction, left := pos.left, top := pos.top,
      first := { rows := wh.2.1, cols := wh.1.1,
                 pixel_width := cdims.pixel_width * wh.1.1,
                 pixel_height := cdims.pixel_height * wh.2.1 },
      second := { rows := wh.2.2, cols := wh.1.2,
                  pixel_width := cdims.pixel_width * wh.1.2,
                  pixel_height := cdims.pixel_height * wh.2.2 } }

/-- Tab::split_and_insert, with its take/restore discipline made
explicit in the returned Tab.  Steps, in source order: compute the split
sizes (error if the index is out of range, tree untouched); take the
tree out of the slot; go_to_nth_leaf (on failure the tree is restored
and an error returned); resize the existing pane, then the new pane —
the source propagates either resize error with the question-mark
operator while the tree is still taken out, so on these two paths the
returned Tab has an empty tree slot; finally replace the leaf by the new
split node, restore the tree, and set active to pane_index + 1. -/
def Tab.split_and_insert (tab : Tab) (pane_index : Nat)
    (direction : SplitDirection) (pane : PaneData) : Tab × Except String Nat :=
  match tab.compute_split_size pane_index direction with
  | none => (tab, Except.error "invalid pane_index; cannot split")
  | some split_info =>
      match tab.pane with
      | none =>
          -- unreachable: compute_split_size returned some, so the slot is
          -- occupied; the source would panic on the unwrap here
          (tab, Except.error "tree slot empty")
      | some t =>
          match nthLeaf t pane_index with
          | none => (tab, Except.error "invalid pane_index; cannot split")
          | some existing =>
              match paneResize existing split_info.first with
              | .error e => ({ tab with pane := none }, Except.error e)
              | .ok existing1 =>
                  match paneResize pane split_info.second with
                  | .error e => ({ tab with pane := none }, Except.error e)
                  | .ok pane1 =>
                      ({ tab with
                         pane := some (replaceNthLeaf t pane_index
                           (.node split_info (.leaf existing1) (.leaf pane1)))
                         active := pane_index + 1 },
                       Except.ok (pane_index + 1))

/-- PASTE_CHUNK_SIZE. -/
def PASTE_CHUNK_SIZE : Nat := 1024

/-- The chain of tasks spawned by schedule_next_paste, as the list of
chunks they send, starting from a given offset: each turn computes
remain = len - offset, sends min(remain, PASTE_CHUNK_SIZE) bytes from
offset and, if bytes remain, advances the offset and re-schedules.  Text
is modelled as a byte list and the target pane is assumed to stay
registered (the missing-pane behaviour is modelled separately). -/
def sendLoop (text : List Nat) (offset : Nat) : List (List Nat) :=
  -- remain = text.len() - offset; chunk = remain.min(PASTE_CHUNK_SIZE),
  -- written out in full so the recursion is on plain terms
  if h : min (text.length - offset) PASTE_CHUNK_SIZE < text.length - offset then
    ((text.drop offset).take (min (text.length - offset) PASTE_CHUNK_SIZE))
      :: sendLoop text (offset + min (text.length - offset) PASTE_CHUNK_SIZE)
  else
    [(text.drop offset).take (min (text.length - offset) PASTE_CHUNK_SIZE)]
termination_by text.length - offset
decreasing_by
  simp only [PASTE_CHUNK_SIZE] at h ⊢
  omega

/-- Pane::trickle_paste, as the ordered list of send_paste arguments: a
text no longer than PASTE_CHUNK_SIZE is sent synchronously in one call;
otherwise the first chunk is sent synchronously and the remainder is
trickled by the scheduled task chain starting at offset
PASTE_CHUNK_SIZE. -/
def trickle_paste (text : List Nat) : List (List Nat) :=
  if text.length ≤ PASTE_CHUNK_SIZE then [text]
  else (text.take PASTE_CHUNK_SIZE) :: sendLoop text PASTE_CHUNK_SIZE

/-- Outcome of one scheduled paste task turn. -/
inductive TaskOutcome where
  | panicked (msg : String)
  | sent (chunk : List Nat) (done : Bool)
deriving Repr, DecidableEq

/-- One turn of the task spawned by schedule_next_paste, with the Mux
lookup explicit: the source unwraps the lookup result, so a missing pane
makes the task panic before sending anything; otherwise the turn sends
its chunk and reports whether the trickle is finished. -/
def paste_task_turn (mux : Nat → Option PaneData) (pid : Nat)
    (text : List Nat) (offset : Nat) : TaskOutcome :=
  match mux pid with
  | none => .panicked "called unwrap on a None value"
  | some _ =>
      let remain := text.length - offset
      let chunk := min remain PASTE_CHUNK_SIZE
      .sent ((text.drop offset).take chunk) (if chunk < remain then false else true)

/-- The PANE_ID / TAB_ID counters start at 0. -/
def COUNTER_INITIAL : Nat := 0

/-- alloc_pane_id (and the TAB_ID allocation in Tab::new):
fetch_add(1) returns the previous counter value and stores its
successor. -/
def alloc_pane_id (counter : Nat) : Nat × Nat := (counter, counter + 1)

/-- The ids produced by n successive allocations from a counter state,
together with the final counter state. -/
def allocN : Nat → Nat → List Nat × Nat
  | 0, c => ([], c)
  | n + 1, c =>
      let step := alloc_pane_id c
      let rest := allocN n step.2
      (step.1 :: rest.1, rest.2)

/-- The divider adjustment and slot of an optional immediate parent. -/
def adjOf : Option (SplitDirectionAndSize × Bool) → Nat × Nat
  | none => (0, 0)
  | some pd => divAdjust pd.1 pd.2

/-- The size slot an optional immediate parent assigns: its first or
second child slot by side, or the Tab's outer size when there is none. -/
def slotOf (outer : PtySize) : Option (SplitDirectionAndSize × Bool) → PtySize
  | none => outer
  | some pd => sideSlot pd.1 pd.2

/-- The pane geometry as the claim states it, rendered as a top-down
recursion: descending into a node adds its left and top offsets for both
children; a leaf additionally receives the divider adjustment from its
immediate parent when it is the right child, and its size is that
parent's corresponding slot (the outer size at the root).  Yields
(left, top, size, pane) per leaf in pre-order. -/
def panesAbs (outer : PtySize) :
    Tree → Nat → Nat → Option (SplitDirectionAndSize × Bool) →
    List (Nat × Nat × PtySize × PaneData)
  | .leaf p, l, t, parent =>
      [(l + (adjOf parent).1, t + (adjOf parent).2, slotOf outer parent, p)]
  | .node d a b, l, t, _ =>
      panesAbs outer a (l + d.left) (t + d.top) (some (d, false)) ++
      panesAbs outer b (l + d.left) (t + d.top) (some (d, true))

/-- geom relative to an enclosing immediate parent: an empty path means
the position itself is the child described by parent. -/
def geomIn (outer : PtySize) (parent : Option (SplitDirectionAndSize × Bool)) :
    List SplitDirectionAndSize → Bool → Nat × Nat × PtySize
  | [], _ => ((adjOf parent).1, (adjOf parent).2, slotOf outer parent)
  | d :: rest, isr => geom outer (d :: rest) isr

/-- Packaging of an indexed (left, top, size, pane) quadruple as a
PositionedPane. -/
def packPane (active : Nat) (x : Nat × (Nat × Nat × PtySize × PaneData)) :
    PositionedPane :=
  { index := x.1, is_active := x.1 == active, left := x.2.1, top := x.2.2.1,
    width := x.2.2.2.1.cols, height := x.2.2.2.1.rows, pane := x.2.2.2.2 }

/-- split_dimension as the claim words it: (d/2, d/2) when d is odd,
(d/2, d/2 - 1) when d is even (truncated subtraction). -/
def split_dimension_spec (dim : Nat) : Nat × Nat :=
  if dim % 2 = 1 then (dim / 2, dim / 2) else (dim / 2, dim / 2 - 1)

/-- compute_split_size as the claim words it, for the pane at the given
position: the split axis dimension is divided by split_dimension, the
other axis is kept equal between first and second, pixel sizes derive
from the given cell dimensions, and left/top are the pane's own. -/
def splitSpec (cdims : PtySize) (direction : SplitDirection)
    (pos : PositionedPane) : SplitDirectionAndSize :=
  match direction with
  | .Horizontal =>
      { direction := direction, left := pos.left, top := pos.top,
        first := { rows := pos.height, cols := (split_dimension_spec pos.width).1,
                   pixel_width := cdims.pixel_width * (split_dimension_spec pos.width).1,
                   pixel_height := cdims.pixel_height * pos.height },
        second := { rows := pos.height, cols := (split_dimension_spec pos.width).2,
                    pixel_width := cdims.pixel_width * (split_dimension_spec pos.width).2,
                    pixel_height := cdims.pixel_height * pos.height } }
  | .Vertical =>
      { direction := direction, left := pos.left, top := pos.top,
        first := { rows := (split_dimension_spec pos.height).1, cols := pos.width,
                   pixel_width := cdims.pixel_width * pos.width,
                   pixel_height := cdims.pixel_height * (split_dimension_spec pos.height).1 },
        second := { rows := (split_dimension_spec pos.height).2, cols := pos.width,
                    pixel_width := cdims.pixel_width * pos.width,
                    pixel_height := cdims.pixel_height * (split_dimension_spec pos.height).2 } }

/-- The resize walk restated with only the data it actually consumes
threaded down: the child slot assigned by the already-updated immediate
parent (the outer size at the root) and that parent's direction
(Horizontal at the root). -/
def resizeSpecA (size : PtySize) (cw ch : Nat) :
    Tree → PtySize → SplitDirection → Tree
  | .leaf p, slot, _ =>
      .leaf (match paneResize p slot with
             | .ok q => q
             | .error _ => p)
  | .node d a b, _, pdir =>
      let d1 := resizeNode size cw ch pdir d
      .node d1 (resizeSpecA size cw ch a d1.first d1.direction)
               (resizeSpecA size cw ch b d1.second d1.direction)

/-- The payload of the root node of the Tab's tree, when the tree is
present and not a single leaf. -/
def rootNodeData (tab : Tab) : Option SplitDirectionAndSize :=
  match tab.pane with
  | some (.node d _ _) => some d
  | _ => none

/-- The 24x80 outer size used by the shipped test suite. -/
def szA : PtySize := ⟨24, 80, 800, 600⟩

/-- Scenario A root pane. -/
def paneA : PaneData := ⟨1, false, false, szA⟩

/-- Scenario A Tab: one assigned pane, 24x80. -/
def tabA : Tab := ⟨some (.leaf paneA), szA, 0⟩

/-- The expected PositionedPane of the single pane of tabA. -/
def posA : PositionedPane := ⟨0, true, 0, 0, 80, 24, paneA⟩

/-- Scenario D pane to insert (24x39). -/
def paneB : PaneData := ⟨2, false, false, ⟨24, 39, 390, 600⟩⟩

/-- A pane whose resize capability reports an I/O error. -/
def paneFailing : PaneData := ⟨1, false, true, szA⟩

/-- A Tab holding one pane whose resize fails. -/
def tabFailing : Tab := ⟨some (.leaf paneFailing), szA, 0⟩

/-- A Vertical root split of the 24x80 tab: 12 rows over 11 rows. -/
def vNode : SplitDirectionAndSize :=
  ⟨.Vertical, 0, 0, ⟨12, 80, 800, 300⟩, ⟨11, 80, 800, 275⟩⟩

/-- Top pane of the Vertical split. -/
def paneTop : PaneData := ⟨4, false, false, ⟨12, 80, 800, 300⟩⟩

/-- Bottom pane of the Vertical split. -/
def paneBottom : PaneData := ⟨5, false, false, ⟨11, 80, 800, 275⟩⟩

/-- A Tab whose tree is a single Vertical split at the root. -/
def tabV : Tab := ⟨some (.node vNode (.leaf paneTop) (.leaf paneBottom)), szA, 0⟩

/-- A larger outer size to resize to. -/
def szNew : PtySize := ⟨30, 100, 1000, 900⟩

/-- A Horizontal root split of the 24x80 tab (scenario D shape). -/
def hNodeAB : SplitDirectionAndSize :=
  ⟨.Horizontal, 0, 0, ⟨24, 40, 400, 600⟩, ⟨24, 39, 390, 600⟩⟩

/-- A Tab already holding two panes under a Horizontal root split. -/
def tabTwoPanes : Tab := ⟨some (.node hNodeAB (.leaf paneA) (.leaf paneB)), szA, 0⟩

/-- A third pane, assigned into the non-empty tabTwoPanes. -/
def paneC : PaneData := ⟨3, false, false, szA⟩

/-- The Tab resulting from the scenario D split of tabA. -/
def tabSplitW : Tab := (tabA.split_and_insert 0 SplitDirection.Horizontal paneB).1

/-- The tree held by tabSplitW. -/
def treeSplitW : Tree := tabSplitW.pane.getD (.leaf paneA)

/-- A Mux registry with no panes registered. -/
def muxEmpty : Nat → Option PaneData := fun _ => none

/-- A small concrete paste text. -/
def pasteDemoText : List Nat := [10, 20, 30]

lemma leafCount_pos (t : Tree) : 0 < leafCount t := by
  induction t with
  | leaf p => simp [leafCount]
  | node d a b iha ihb => simp only [leafCount]; omega

lemma leafPaths_length (t : Tree) : (leafPaths t).length = leafCount t := by
  induction t with
  | leaf p => rfl
  | node d a b iha ihb =>
      simp [leafPaths, leafCount, iha, ihb]

lemma withIdx_map_fst (l : List α) : ∀ k : Nat,
    (withIdx l k).map Prod.fst = List.range' k l.length := by
  induction l with
  | nil => intro k; rfl
  | cons x xs ih => intro k; simp [withIdx, ih, List.range'_succ]

lemma withIdx_map (f : α → β) (l : List α) : ∀ k : Nat,
    withIdx (l.map f) k = (withIdx l k).map (fun x => (x.1, f x.2)) := by
  induction l with
  | nil => intro k; rfl
  | cons x xs ih => intro k; simp [withIdx, ih]

lemma nthLeaf_lt_leafCount (t : Tree) : ∀ (n : Nat) (p : PaneData),
    nthLeaf t n = some p → n < leafCount t := by
  induction t with
  | leaf q =>
      intro n p h
      cases n with
      | zero => simp [leafCount]
      | succ m => simp [nthLeaf] at h
  | node d a b iha ihb =>
      intro n p h
      simp only [nthLeaf] at h
      by_cases hn : n < leafCount a
      · simp only [leafCount]; omega
      · rw [if_neg hn] at h
        have := ihb (n - leafCount a) p h
        simp only [leafCount]; omega

lemma leafCount_replaceNthLeaf (t : Tree) : ∀ (n : Nat) (r : Tree), n < leafCount t →
    leafCount (replaceNthLeaf t n r) = leafCount t - 1 + leafCount r := by
  induction t with
  | leaf q =>
      intro n r h
      have hn : n = 0 := by simp [leafCount] at h; omega
      subst hn
      simp [replaceNthLeaf, leafCount]
  | node d a b iha ihb =>
      intro n r h
      simp only [leafCount] at h
      by_cases hn : n < leafCount a
      · have ha := leafCount_pos a
        simp only [replaceNthLeaf, if_pos hn, leafCount, iha n r hn]
        omega
      · have hb : n - leafCount a < leafCount b := by omega
        have hbp := leafCount_pos b
        simp only [replaceNthLeaf, if_neg hn, leafCount, ihb (n - leafCount a) r hb]
        omega

/-- C9 counterexample: the first identifier handed out by the counter
(initialized to 0; fetch_add returns the previous value) is 0 — the
claim that every allocated id is nonzero fails on the very first
allocation. -/
theorem c9_alloc_counterexample :
    (allocN 1 COUNTER_INITIAL).1 = [0] ∧ 0 ∈ (allocN 1 COUNTER_INITIAL).1 := by
  decide

lemma allocN_eq_range' : ∀ (n c : Nat), allocN n c = (List.range' c n, c + n) := by
  intro n
  induction n with
  | zero => intro c; simp [allocN]
  | succ m ih =>
      intro c
      simp [allocN, alloc_pane_id, ih, List.range'_succ]
      omega

/-- C9 amended: identifiers are allocated consecutively starting at 0
(the counter starts at 0 and fetch_add returns the previous value), so
they are strictly increasing and never reused — but the first id is 0,
not nonzero. -/
theorem c9_alloc_monotone_no_reuse (n : Nat) :
    (allocN n COUNTER_INITIAL).1 = List.range n
    ∧ List.Pairwise (· < ·) (allocN n COUNTER_INITIAL).1
    ∧ (allocN n COUNTER_INITIAL).1.Nodup := by
  have h : (allocN n COUNTER_INITIAL).1 = List.range n := by
    rw [allocN_eq_range', COUNTER_INITIAL, List.range_eq_range']
  refine ⟨h, ?_, ?_⟩
  · rw [h]; exact List.pairwise_lt_range n
  · rw [h]; exact List.nodup_range n

/-- C10: the unguarded divisions pixel_width / cols and pixel_height /
rows in cell_dimensions and at the top of resize cannot hit the
division-by-zero panic branch when the size has positive rows and cols:
the checked embeddings return some, agreeing with the total Nat-division
embeddings used downstream. -/
theorem c10_division_guarded (size : PtySize)
    (hr : 0 < size.rows) (hc : 0 < size.cols) :
    cell_dimensionsChecked size = some (cell_dims size)
    ∧ resizeCellsChecked size
        = some (size.pixel_width / size.cols, size.pixel_height / size.rows) := by
  have hr0 : size.rows ≠ 0 := Nat.pos_iff_ne_zero.mp hr
  have hc0 : size.cols ≠ 0 := Nat.pos_iff_ne_zero.mp hc
  constructor
  · simp [cell_dimensionsChecked, checkedDiv, hr0, hc0, cell_dims]
  · simp [resizeCellsChecked, checkedDiv, hr0, hc0]

/-- C10 witness: the 24x80 size satisfies the precondition and both
checked computations succeed on it. -/
theorem c10_witness :
    0 < szA.rows ∧ 0 < szA.cols
    ∧ cell_dimensionsChecked szA = some (cell_dims szA) :=
  ⟨by decide, by decide, (c10_division_guarded szA (by decide) (by decide)).1⟩

/-- C6 counterexample: with the target pane absent from the Mux
registry, the scheduled paste task panics on the unwrapped lookup — it
does not terminate silently as a no-op, contradicting the claim that
the none lookup stops the trickler without error or crash. -/
theorem c6_missing_pane_counterexample :
    paste_task_turn muxEmpty 7 pasteDemoText 0
      = TaskOutcome.panicked "called unwrap on a None value" := by
  decide

/-- C6 amended: whenever the Mux lookup for the target pane yields none,
the scheduled paste task panics (unwrap of None) before sending
anything, rather than stopping silently. -/
theorem c6_missing_pane_panics (mux : Nat → Option PaneData) (pid : Nat)
    (text : List Nat) (offset : Nat) (h : mux pid = none) :
    paste_task_turn mux pid text offset
      = TaskOutcome.panicked "called unwrap on a None value" := by
  simp [paste_task_turn, h]

/-- C6 witness: the amended theorem applied to an empty registry at a
different pane id and offset. -/
theorem c6_missing_pane_witness :
    paste_task_turn muxEmpty 9 pasteDemoText 2
      = TaskOutcome.panicked "called unwrap on a None value" :=
  c6_missing_pane_panics muxEmpty 9 pasteDemoText 2 rfl

/-- C7 (code bug): assign_pane on a Tab whose tree already holds two
panes silently replaces the tree with a single leaf holding the new
pane and reports no failure — the source calls assign_top on a freshly
created empty tree instead of the Tab's own tree, so its
double-assignment panic branch is unreachable. -/
theorem c7_assign_pane_silently_replaces :
    tabTwoPanes.pane = some (.node hNodeAB (.leaf paneA) (.leaf paneB))
    ∧ (tabTwoPanes.assign_pane paneC).pane = some (.leaf paneC) :=
  ⟨rfl, rfl⟩

/-- C1 (code bug): split_and_insert on a Tab whose existing pane fails
its resize returns the error via the question-mark operator after the
tree was taken out of the slot and before it was restored: the returned
Tab has an empty tree slot, violating the restore-on-every-exit-path
policy. -/
theorem c1_split_and_insert_loses_tree :
    (tabFailing.split_and_insert 0 SplitDirection.Horizontal paneB).1.pane = none
    ∧ (tabFailing.split_and_insert 0 SplitDirection.Horizontal paneB).2
        = Except.error "resize failed" := by
  constructor
  · rfl
  · rfl

/-- C8 counterexample: set_active_idx stores its argument without any
bounds check, so setting index 5 on a one-pane Tab leaves active = 5
with leaf_count = 1, violating the claimed invariant 0 <= active <
leaf_count after every public operation. -/
theorem c8_set_active_idx_counterexample :
    (tabA.set_active_idx 5).active = 5
    ∧ ((tabA.set_active_idx 5).pane.map leafCount) = some 1
    ∧ ¬ (5 < 1) := by
  decide

/-- C2 counterexample: resizing a Tab whose root is a Vertical split to
a 30x100 outer size.  The claim requires a Vertical node to receive
first.cols = second.cols = 100 (the parent area, here new_size), with
second.rows = 30 - (first.rows + 1) and first.rows unchanged at 12.
The code instead branches on the immediate parent's direction —
Horizontal at the root — and writes the outer size into the Horizontal
fields: both rows become 30, first.cols stays 80 and second.cols
becomes 100 - (1 + 80) = 19. -/
theorem c2_resize_counterexample :
    (rootNodeData (tabV.resize szNew)).map
        (fun d => (d.direction, d.first.rows, d.second.rows, d.first.cols, d.second.cols))
      = some (SplitDirection.Vertical, 30, 30, 80, 19)
    ∧ szNew.rows = 30 ∧ szNew.cols = 100 := by
  decide

lemma sendLoop_flatten (text : List Nat) (offset : Nat) :
    (sendLoop text offset).flatten = text.drop offset := by
  induction offset using sendLoop.induct text with
  | case1 offset h ih =>
      rw [sendLoop, dif_pos h]
      rw [List.flatten_cons, ih]
      rw [← List.drop_drop (min (text.length - offset) PASTE_CHUNK_SIZE) offset text]
      rw [List.take_append_drop]
  | case2 offset h =>
      rw [sendLoop, dif_neg h]
      simp only [List.flatten_cons, List.flatten_nil, List.append_nil]
      have hle : (text.drop offset).length ≤ min (text.length - offset) PASTE_CHUNK_SIZE := by
        rw [List.length_drop]
        omega
      exact List.take_of_length_le hle

lemma sendLoop_chunks_le (text : List Nat) (offset : Nat) :
    ∀ c ∈ sendLoop text offset, c.length ≤ PASTE_CHUNK_SIZE := by
  induction offset using sendLoop.induct text with
  | case1 offset h ih =>
      intro c hc
      rw [sendLoop, dif_pos h] at hc
      rcases List.mem_cons.mp hc with hc1 | hc1
      · subst hc1
        rw [List.length_take]
        omega
      · exact ih c hc1
  | case2 offset h =>
      intro c hc
      rw [sendLoop, dif_neg h] at hc
      rcases List.mem_singleton.mp hc with hc1
      subst hc1
      rw [List.length_take]
      omega

/-- C5: for any text, the chunks handed to send_paste by trickle_paste
concatenate, in order, to exactly the original text; every chunk is at
most PASTE_CHUNK_SIZE = 1024 bytes; and a text of at most 1024 bytes is
sent synchronously in exactly one send_paste call. -/
theorem c5_trickle_paste_complete (text : List Nat) :
    (trickle_paste text).flatten = text
    ∧ (∀ c ∈ trickle_paste text, c.length ≤ PASTE_CHUNK_SIZE)
    ∧ (text.length ≤ PASTE_CHUNK_SIZE → trickle_paste text = [text]) := by
  by_cases h : text.length ≤ PASTE_CHUNK_SIZE
  · refine ⟨?_, ?_, fun _ => ?_⟩
    · simp [trickle_paste, h]
    · intro c hc
      simp only [trickle_paste, if_pos h, List.mem_singleton] at hc
      subst hc
      exact h
    · simp [trickle_paste, h]
  · refine ⟨?_, ?_, fun hcon => absurd hcon h⟩
    · simp only [trickle_paste, if_neg h, List.flatten_cons, sendLoop_flatten]
      exact List.take_append_drop PASTE_CHUNK_SIZE text
    · intro c hc
      simp only [trickle_paste, if_neg h, List.mem_cons] at hc
      rcases hc with hc | hc
      · subst hc
        rw [List.length_take]
        omega
      · exact sendLoop_chunks_le text PASTE_CHUNK_SIZE c hc

/-- C5 witness: a three-byte text fits in one chunk and round-trips. -/
theorem c5_trickle_paste_witness :
    trickle_paste pasteDemoText = [pasteDemoText]
    ∧ (trickle_paste pasteDemoText).flatten = pasteDemoText :=
  ⟨(c5_trickle_paste_complete pasteDemoText).2.2 (by decide),
   (c5_trickle_paste_complete pasteDemoText).1⟩

lemma resizeTree_eq_specA (size : PtySize) (cw ch : Nat) (t : Tree) :
    ∀ parent : Option (SplitDirectionAndSize × Bool),
      resizeTree size cw ch t parent
        = resizeSpecA size cw ch t (slotOf size parent)
            (match parent with
             | none => SplitDirection.Horizontal
             | some pd => pd.1.direction) := by
  induction t with
  | leaf p =>
      intro parent
      cases parent with
      | none => rfl
      | some pd => rfl
  | node d a b iha ihb =>
      intro parent
      cases parent with
      | none =>
          simp only [resizeTree, resizeSpecA]
          rw [iha (some (resizeNode size cw ch SplitDirection.Horizontal d, false)),
              ihb (some (resizeNode size cw ch SplitDirection.Horizontal d, true))]
          rfl
      | some pd =>
          simp only [resizeTree, resizeSpecA]
          rw [iha (some (resizeNode size cw ch pd.1.direction d, false)),
              ihb (some (resizeNode size cw ch pd.1.direction d, true))]
          rfl

/-- C2 amended: resize recomputes the cell dimensions from the new
outer size and walks the tree; every leaf receives the child slot of
its already-updated immediate parent (the new outer size at the root),
but each internal node is updated by branching on the immediate
parent's direction — Horizontal at the root, not the node's own — and
writes rows/cols taken from the new outer size rather than from the
parent's child slot: in the Horizontal branch first.rows = second.rows
= new rows and second.cols = new cols - (1 + first.cols) with
first.cols unchanged, symmetrically in the Vertical branch, and both
children's pixel sizes are recomputed from the new cell dimensions. -/
theorem c2_resize_uses_outer_size (sz newSize : PtySize) (act : Nat) (t : Tree) :
    Tab.resize (Tab.mk (some t) sz act) newSize
      = Tab.mk
          (some (resizeSpecA newSize (newSize.pixel_width / newSize.cols)
                   (newSize.pixel_height / newSize.rows) t newSize
                   SplitDirection.Horizontal))
          newSize act := by
  simp only [Tab.resize]
  rw [resizeTree_eq_specA]
  rfl

/-- C8 amended: a successful split_and_insert leaves the active index
in bounds — it sets active = pane_index + 1 and the new tree has one
more leaf than before, so 0 <= active < leaf_count holds afterwards;
set_active_idx, in contrast, stores its argument without any bounds
check and so can violate the invariant. -/
theorem c8_split_and_insert_active_bounds (tab : Tab) (idx : Nat)
    (dir : SplitDirection) (p : PaneData) (tab2 : Tab) (n : Nat)
    (h : tab.split_and_insert idx dir p = (tab2, Except.ok n)) :
    ∀ t2, tab2.pane = some t2 → tab2.active < leafCount t2 := by
  intro t2 ht2
  cases hc : tab.compute_split_size idx dir with
  | none => simp [Tab.split_and_insert, hc] at h
  | some si =>
      cases hp : tab.pane with
      | none => simp [Tab.split_and_insert, hc, hp] at h
      | some t =>
          cases hl : nthLeaf t idx with
          | none => simp [Tab.split_and_insert, hc, hp, hl] at h
          | some ex =>
              cases hr1 : paneResize ex si.first with
              | error e => simp [Tab.split_and_insert, hc, hp, hl, hr1] at h
              | ok ex1 =>
                  cases hr2 : paneResize p si.second with
                  | error e =>
                      simp [Tab.split_and_insert, hc, hp, hl, hr1, hr2] at h
                  | ok p1 =>
                      simp only [Tab.split_and_insert, hc, hp, hl, hr1, hr2,
                        Prod.mk.injEq] at h
                      obtain ⟨h1, h2⟩ := h
                      subst h1
                      have ht2' : replaceNthLeaf t idx
                          (.node si (.leaf ex1) (.leaf p1)) = t2 := by
                        simpa using ht2
                      have hidx : idx < leafCount t := nthLeaf_lt_leafCount t idx ex hl
                      have hrc := leafCount_replaceNthLeaf t idx
                        (.node si (.leaf ex1) (.leaf p1)) hidx
                      rw [ht2'] at hrc
                      have hpos := leafCount_pos t
                      simp only [leafCount] at hrc
                      show idx + 1 < leafCount t2
                      omega

/-- C8 witness: the scenario D split of the one-pane 24x80 Tab succeeds
and leaves the active index within the two-leaf tree's bounds. -/
theorem c8_split_and_insert_witness : tabSplitW.active < leafCount treeSplitW :=
  c8_split_and_insert_active_bounds tabA 0 SplitDirection.Horizontal paneB
    tabSplitW 1 rfl treeSplitW rfl

lemma withIdx_length (l : List α) : ∀ k : Nat, (withIdx l k).length = l.length := by
  induction l with
  | nil => intro k; rfl
  | cons x xs ih => intro k; simp [withIdx, ih]

lemma geomIn_append (outer : PtySize) (parent : Option (SplitDirectionAndSize × Bool))
    (d : SplitDirectionAndSize) (side : Bool) :
    ∀ (path : List SplitDirectionAndSize) (isr : Bool),
      geomIn outer parent (path ++ [d]) (if path.isEmpty then side else isr)
        = (d.left + (geomIn outer (some (d, side)) path isr).1,
           d.top + (geomIn outer (some (d, side)) path isr).2.1,
           (geomIn outer (some (d, side)) path isr).2.2) := by
  intro path isr
  cases path with
  | nil =>
      simp only [List.nil_append, List.isEmpty_nil, if_true, geomIn, geom, adjOf, slotOf,
        List.map_cons, List.map_nil, List.sum_cons, List.sum_nil, Prod.mk.injEq]
      refine ⟨by omega, by omega, trivial⟩
  | cons e rest =>
      simp only [List.cons_append, List.isEmpty_cons, Bool.false_eq_true, if_false,
        geomIn, geom, List.map_cons, List.map_append, List.map_nil, List.sum_cons,
        List.sum_append, List.sum_nil, Prod.mk.injEq]
      refine ⟨by omega, by omega, trivial⟩

lemma geomIn_none (outer : PtySize) :
    ∀ (path : List SplitDirectionAndSize) (isr : Bool),
      geomIn outer none path isr = geom outer path isr := by
  intro path isr
  cases path with
  | nil => rfl
  | cons e rest => rfl

lemma panesAbs_eq_leafPaths (outer : PtySize) (t : Tree) :
    ∀ (l0 t0 : Nat) (parent : Option (SplitDirectionAndSize × Bool)),
      panesAbs outer t l0 t0 parent
        = (leafPaths t).map (fun x =>
            (l0 + (geomIn outer parent x.2.1 x.2.2).1,
             t0 + (geomIn outer parent x.2.1 x.2.2).2.1,
             (geomIn outer parent x.2.1 x.2.2).2.2,
             x.1)) := by
  induction t with
  | leaf p =>
      intro l0 t0 parent
      simp [panesAbs, leafPaths, geomIn]
  | node d a b iha ihb =>
      intro l0 t0 parent
      simp only [panesAbs, leafPaths, List.map_append, List.map_map, iha, ihb]
      congr 1
      · apply List.map_congr_left
        intro x hx
        simp only [Function.comp_apply]
        rw [geomIn_append outer parent d false x.2.1 x.2.2]
        simp only [Prod.mk.injEq]
        refine ⟨by omega, by omega, trivial⟩
      · apply List.map_congr_left
        intro x hx
        simp only [Function.comp_apply]
        rw [geomIn_append outer parent d true x.2.1 x.2.2]
        simp only [Prod.mk.injEq]
        refine ⟨by omega, by omega, trivial⟩

lemma panesAbs_length (outer : PtySize) (t : Tree) (l0 t0 : Nat)
    (parent : Option (SplitDirectionAndSize × Bool)) :
    (panesAbs outer t l0 t0 parent).length = leafCount t := by
  rw [panesAbs_eq_leafPaths, List.length_map, leafPaths_length]

lemma iterPanesTree_length (outer : PtySize) (act : Nat) (t : Tree) :
    (iterPanesTree outer act t).length = leafCount t := by
  unfold iterPanesTree
  rw [List.length_map, withIdx_length, leafPaths_length]

/-- C4: iter_panes on any tree shape yields the leaves in pre-order
with indices 0..leaf_count and active flag index == active, and each
leaf's geometry is the claim's: node.left and node.top summed over all
ancestors, the divider offset (first.rows + 1 to top for Vertical,
first.cols + 1 to left for Horizontal) added only when the leaf is the
right child of its nearest ancestor, the size taken from that nearest
parent's first or second slot by side, and the Tab's outer size when
the leaf is the root — stated as equality with the top-down geometry
panesAbs. -/
theorem c4_iter_panes_geometry (outer : PtySize) (act : Nat) (t : Tree) :
    Tab.iter_panes (Tab.mk (some t) outer act)
      = (withIdx (panesAbs outer t 0 0 none) 0).map (packPane act)
    ∧ (Tab.iter_panes (Tab.mk (some t) outer act)).map (fun pp => pp.index)
      = List.range (leafCount t) := by
  have hmain : Tab.iter_panes (Tab.mk (some t) outer act)
      = (withIdx (panesAbs outer t 0 0 none) 0).map (packPane act) := by
    show iterPanesTree outer act t = _
    rw [panesAbs_eq_leafPaths, withIdx_map, List.map_map]
    unfold iterPanesTree
    apply List.map_congr_left
    intro x hx
    simp only [Function.comp_apply, packPane, geomIn_none, Nat.zero_add]
  refine ⟨hmain, ?_⟩
  rw [hmain, List.map_map]
  have hcomp : ((fun pp : PositionedPane => pp.index) ∘ packPane act)
      = Prod.fst := funext fun y => rfl
  rw [hcomp, withIdx_map_fst, panesAbs_length, List.range_eq_range']

lemma split_dimension_eq_spec (dim : Nat) :
    split_dimension dim = split_dimension_spec dim := by
  unfold split_dimension split_dimension_spec
  by_cases h : dim % 2 = 1
  · rw [if_pos h]
    have hne : ¬ (dim / 2 * 2 = dim) := by omega
    rw [if_neg hne]
  · rw [if_neg h]
    have heq : dim / 2 * 2 = dim := by omega
    rw [if_pos heq]

/-- C3: compute_split_size returns none exactly when pane_index is out
of range (at least the leaf count); otherwise it returns the claim's
split for the indexed pane: the split-axis dimension divided by
split_dimension ((d/2, d/2) when d is odd, (d/2, d/2 - 1) when d is
even), the other axis equal between first and second, pixel sizes
derived from the Tab's current cell dimensions, and left/top equal to
the pane's own position. -/
theorem c3_compute_split_size_spec (sz : PtySize) (act : Nat) (t : Tree)
    (idx : Nat) (dir : SplitDirection) :
    ((Tab.mk (some t) sz act).compute_split_size idx dir = none ↔ leafCount t ≤ idx)
    ∧ ∀ pos, ((Tab.mk (some t) sz act).iter_panes).get? idx = some pos →
        (Tab.mk (some t) sz act).compute_split_size idx dir
          = some (splitSpec (cell_dims sz) dir pos) := by
  constructor
  · simp only [Tab.compute_split_size, Option.map_eq_none', List.get?_eq_none]
    show (iterPanesTree sz act t).length ≤ idx ↔ leafCount t ≤ idx
    rw [iterPanesTree_length]
  · intro pos hpos
    simp only [Tab.compute_split_size, hpos, Option.map_some', Option.some.injEq]
    cases dir with
    | Horizontal =>
        simp only [splitSpec, split_dimension_eq_spec]
        rfl
    | Vertical =>
        simp only [splitSpec, split_dimension_eq_spec]
        rfl

/-- C3 witness: on the one-pane 24x80 Tab of scenario A, index 1 is out
of range, and index 0 splits horizontally into the claimed sizes. -/
theorem c3_compute_split_size_witness :
    tabA.compute_split_size 1 SplitDirection.Horizontal = none
    ∧ tabA.compute_split_size 0 SplitDirection.Horizontal
        = some (splitSpec (cell_dims szA) SplitDirection.Horizontal posA) :=
  ⟨(c3_compute_split_size_spec szA 0 (.leaf paneA) 1 SplitDirection.Horizontal).1.mpr
      (by decide),
   (c3_compute_split_size_spec szA 0 (.leaf paneA) 0 SplitDirection.Horizontal).2 posA
      (by decide)⟩

end WezTab
